import Mathlib

/-!
# Verification of the detection pipeline (`src/Detect_demo.py`)

Shallow embedding of the core detection pipeline: geometry normalization
(`_to_pixels`), response unpacking (`_extract_detections`, `_parse_zip`),
the detection requester (`_request_zip`), the fallback annotator
(`annotate`) and the orchestrator (`detect`).

Modelling conventions:
* Python/JSON values are the inductive `JValue`; numbers are rationals
  (`ℚ`), conflating Python's `int`/`float` (whose arithmetic the claims
  use only on exactly-representable values) and ignoring rounding.
* Byte strings are `List Nat`.
* Python dictionaries are association lists with unique keys assumed;
  `dict.get` is first-match lookup, returning `JValue.null` (Python
  `None`) when the key is absent.
* Fallible Python code (coercions such as `float(...)` on non-numeric
  values, attribute errors on non-dict values) is `Option`-valued:
  `none` models a raised exception.
* External libraries (`requests`, `zipfile`, `json`, PIL) are modelled
  as capabilities/oracles where their internals do not matter, and by
  their documented semantics where they do (`raise_for_status` raises
  exactly for status codes in [400, 600); a PNG stream always begins
  with the fixed 8-byte PNG signature).
-/

/-- JSON-like runtime values as produced by `json.loads`. -/
inductive JValue where
  | null : JValue
  | bool : Bool → JValue
  | num : ℚ → JValue
  | str : String → JValue
  | arr : List JValue → JValue
  | obj : List (String × JValue) → JValue

/-- Python truthiness (`bool(v)`): `None`, `False`, `0`, the empty
string, the empty list and the empty dict are falsy, everything else
truthy. -/
def pyTruthy : JValue → Bool
  | .null => false
  | .bool b => b
  | .num q => q ≠ 0
  | .str s => s ≠ ""
  | .arr xs => !xs.isEmpty
  | .obj fs => !fs.isEmpty

/-- Python `a or b`: the first operand when truthy, otherwise the second. -/
def pyOr (a b : JValue) : JValue :=
  if pyTruthy a then a else b

/-- `d.get(k)` on a dict: the value at `k`, else `None`. Applied to the
`obj` constructor only; the source never reaches the other cases here. -/
def jGet (v : JValue) (k : String) : JValue :=
  match v with
  | .obj fs => (fs.lookup k).getD .null
  | _ => .null

/-- `d.get(k, default)` on a dict. -/
def jGetD (v : JValue) (k : String) (dflt : JValue) : JValue :=
  match v with
  | .obj fs => (fs.lookup k).getD dflt
  | _ => dflt

/-- Digits to a natural number, most significant first. -/
def digitsToNat (ds : List Char) : ℕ :=
  ds.foldl (fun a c => a * 10 + (c.toNat - 48)) 0

/-- Leading optional sign: `true` means negative. -/
def splitSign : List Char → Bool × List Char
  | '-' :: rest => (true, rest)
  | '+' :: rest => (false, rest)
  | cs => (false, cs)

/-- Mantissa of a Python float literal: `digits[.digits]` or `.digits`;
returns its value and the unconsumed rest. -/
def parseMantissa (cs : List Char) : Option (ℚ × List Char) :=
  let ip := cs.takeWhile Char.isDigit
  let rest := cs.dropWhile Char.isDigit
  match rest with
  | '.' :: rest2 =>
    let fp := rest2.takeWhile Char.isDigit
    let rest3 := rest2.dropWhile Char.isDigit
    if ip.isEmpty && fp.isEmpty then none
    else some ((digitsToNat ip : ℚ) + (digitsToNat fp : ℚ) / 10 ^ fp.length, rest3)
  | _ => if ip.isEmpty then none else some ((digitsToNat ip : ℚ), rest)

/-- Exponent suffix `e±digits` (or nothing), as an integer. -/
def parseExponent : List Char → Option ℤ
  | [] => some 0
  | 'e' :: r =>
    let (eneg, r1) := splitSign r
    let ds := r1.takeWhile Char.isDigit
    let r2 := r1.dropWhile Char.isDigit
    if ds.isEmpty || !r2.isEmpty then none
    else some (if eneg then -(digitsToNat ds : ℤ) else (digitsToNat ds : ℤ))
  | 'E' :: r =>
    let (eneg, r1) := splitSign r
    let ds := r1.takeWhile Char.isDigit
    let r2 := r1.dropWhile Char.isDigit
    if ds.isEmpty || !r2.isEmpty then none
    else some (if eneg then -(digitsToNat ds : ℤ) else (digitsToNat ds : ℤ))
  | _ => none

/-- Python `float(s)` on a string, restricted to finite decimal literals
(optional surrounding whitespace, sign, decimal mantissa, optional
exponent); `inf`/`nan`/underscored literals fall outside the rational
model and are treated as failures. -/
def parsePyFloat (s : String) : Option ℚ :=
  let cs := s.trim.toList
  let (neg, cs1) := splitSign cs
  match parseMantissa cs1 with
  | none => none
  | some (m, rest) =>
    match parseExponent rest with
    | none => none
    | some e => some ((if neg then -m else m) * (10 : ℚ) ^ e)

/-- Python `float(v)`: identity on numbers, `True ↦ 1.0` / `False ↦ 0.0`,
string parsing for strings, and a raised `TypeError`/`ValueError`
(modelled `none`) on `None`, lists and dicts. -/
def pyFloat : JValue → Option ℚ
  | .num q => some q
  | .bool b => some (if b then 1 else 0)
  | .str s => parsePyFloat s
  | .null => none
  | .arr _ => none
  | .obj _ => none

/-- Python `v - x` where `x` is a float: defined for numbers and bools,
a raised `TypeError` (modelled `none`) otherwise. -/
def pySubFloat (v : JValue) (x : ℚ) : Option ℚ :=
  match v with
  | .num q => some (q - x)
  | .bool b => some ((if b then 1 else 0) - x)
  | _ => none

mutual

/-- Python `repr(v)` for JSON values; numeric rendering is exact for
integers and approximate (fraction form) for non-integral rationals,
which no claim inspects. -/
def pyRepr : JValue → String
  | .null => "None"
  | .bool b => if b then "True" else "False"
  | .num q => if q.den = 1 then toString q.num else toString q
  | .str s => "\x27" ++ s ++ "\x27"
  | .arr xs => "[" ++ pyReprList xs ++ "]"
  | .obj fs => "\x7b" ++ pyReprFields fs ++ "\x7d"

/-- Comma-separated `repr` of list elements. -/
def pyReprList : List JValue → String
  | [] => ""
  | [x] => pyRepr x
  | x :: y :: xs => pyRepr x ++ ", " ++ pyReprList (y :: xs)

/-- Comma-separated `repr` of dict items. -/
def pyReprFields : List (String × JValue) → String
  | [] => ""
  | [(k, v)] => "\x27" ++ k ++ "\x27: " ++ pyRepr v
  | (k, v) :: f :: fs => "\x27" ++ k ++ "\x27: " ++ pyRepr v ++ ", " ++ pyReprFields (f :: fs)

end

/-- Python `str(v)`: the string itself for strings, `repr` otherwise. -/
def pyStr (v : JValue) : String :=
  match v with
  | .str s => s
  | _ => pyRepr v

/-- Is the value a dict (`isinstance(v, dict)`)? -/
def JValue.isObj : JValue → Bool
  | .obj _ => true
  | _ => false

-- --------------------------------------------------------------------
-- `_to_pixels` (src/Detect_demo.py lines 172-184)
-- --------------------------------------------------------------------

/-- `float(box.get("x") or box.get("xmin") or 0)` (line 174). -/
def readX (box : JValue) : Option ℚ :=
  pyFloat (pyOr (jGet box "x") (pyOr (jGet box "xmin") (.num 0)))

/-- `float(box.get("y") or box.get("ymin") or 0)` (line 175). -/
def readY (box : JValue) : Option ℚ :=
  pyFloat (pyOr (jGet box "y") (pyOr (jGet box "ymin") (.num 0)))

/-- `float(box.get("width") or (box.get("xmax", 0) - x))` (line 176):
when `width` is truthy it is coerced, otherwise `xmax` (defaulting to 0
when absent) minus the already-read `x`. -/
def readW (box : JValue) (x : ℚ) : Option ℚ :=
  if pyTruthy (jGet box "width") then pyFloat (jGet box "width")
  else pySubFloat (jGetD box "xmax" (.num 0)) x

/-- `float(box.get("height") or (box.get("ymax", 0) - y))` (line 177). -/
def readH (box : JValue) (y : ℚ) : Option ℚ :=
  if pyTruthy (jGet box "height") then pyFloat (jGet box "height")
  else pySubFloat (jGetD box "ymax" (.num 0)) y

/-- `_to_pixels(box, width, height)` (lines 172-184): reads position and
extent per axis, scales an axis by the image dimension exactly when both
its position and extent lie in [0,1], and returns
`[x, y, x + w, y + h]`. On a non-dict argument `box.get` raises
(`none`). -/
def to_pixels (box : JValue) (width height : ℚ) : Option (List ℚ) :=
  match box with
  | .obj _ =>
    match readX box with
    | none => none
    | some x =>
      match readY box with
      | none => none
      | some y =>
        match readW box x with
        | none => none
        | some w =>
          match readH box y with
          | none => none
          | some h =>
            let xw : ℚ × ℚ :=
              if 0 ≤ x ∧ x ≤ 1 ∧ 0 ≤ w ∧ w ≤ 1 then (x * width, w * width) else (x, w)
            let yh : ℚ × ℚ :=
              if 0 ≤ y ∧ y ≤ 1 ∧ 0 ≤ h ∧ h ≤ 1 then (y * height, h * height) else (y, h)
            some [xw.1, yh.1, xw.1 + xw.2, yh.1 + yh.2]
  | _ => none

example : to_pixels (.obj [("x", .num (1/10)), ("y", .num (1/10)),
    ("width", .num (1/5)), ("height", .num (1/5))]) 800 600 =
    some [80, 60, 240, 180] := by
  simp [to_pixels, readX, readY, readW, readH, jGet, jGetD, pyOr, pyTruthy,
    pyFloat, pySubFloat, List.lookup]
  norm_num

example : to_pixels (.obj [("width", .num 0), ("xmax", .num 100), ("x", .num 20)]) 800 600 =
    some [20, 0, 100, 0] := by
  simp [to_pixels, readX, readY, readW, readH, jGet, jGetD, pyOr, pyTruthy,
    pyFloat, pySubFloat, List.lookup]

-- --------------------------------------------------------------------
-- `_extract_detections` (src/Detect_demo.py lines 124-150)
-- --------------------------------------------------------------------

/-- One normalized detection (lines 143-149): the dict with keys
`label`, `confidence` and `bbox`. All three fields are total in the
embedding, mirroring that the source always writes all three keys. -/
structure Detection where
  label : String
  confidence : ℚ
  bbox : List ℚ
deriving DecidableEq, Repr

/-- The ordered key preference of lines 128-131: the first of
`predictions`, `detections`, `objects`, `results`, `data` whose value is
a list. -/
def firstListKey (data : JValue) : List String → Option (List JValue)
  | [] => none
  | k :: ks =>
    match jGet data k with
    | .arr xs => some xs
    | _ => firstListKey data ks

/-- Lines 127-135: a dict is searched for the first list-valued
preference key, falling back (the loop's `else`) to treating the dict
itself as a single record; a list is used directly; anything else gives
no items. -/
def itemsOf (data : JValue) : List JValue :=
  match data with
  | .obj _ =>
    match firstListKey data ["predictions", "detections", "objects", "results", "data"] with
    | some xs => xs
    | none => [data]
  | .arr xs => xs
  | _ => []

/-- Lines 141-148 for one dict record: `bbox`/`box`/`bounding_box`
truthy-chained with an empty-dict default, normalized by
`_to_pixels`; label
via `str` of the truthy-chain `label`/`class`/`text` with default
`"object"`; confidence via `float` of the truthy-chain
`confidence`/`score` with default `0`. -/
def record_detection (item : JValue) (width height : ℚ) : Option Detection :=
  match to_pixels (pyOr (jGet item "bbox") (pyOr (jGet item "box")
      (pyOr (jGet item "bounding_box") (.obj [])))) width height with
  | none => none
  | some bbox =>
    match pyFloat (pyOr (jGet item "confidence") (pyOr (jGet item "score") (.num 0))) with
    | none => none
    | some conf =>
      some ⟨pyStr (pyOr (jGet item "label") (pyOr (jGet item "class")
        (pyOr (jGet item "text") (.str "object")))), conf, bbox⟩

/-- The record loop of lines 138-149: non-dict items are skipped
(`continue`), dict items yield one detection each, in order; an
exception inside a record aborts the whole call (`none`). -/
def extractLoop (width height : ℚ) : List JValue → Option (List Detection)
  | [] => some []
  | item :: rest =>
    match item with
    | .obj fs =>
      match record_detection (.obj fs) width height with
      | none => none
      | some d =>
        match extractLoop width height rest with
        | none => none
        | some ds => some (d :: ds)
    | _ => extractLoop width height rest

/-- `_extract_detections(data, width, height)` (lines 124-150). -/
def extract_detections (data : JValue) (width height : ℚ) : Option (List Detection) :=
  extractLoop width height (itemsOf data)

-- --------------------------------------------------------------------
-- `_parse_zip` (src/Detect_demo.py lines 151-171)
-- --------------------------------------------------------------------

/-- One archive member: its name and raw content, in the order reported
by `ZipFile.namelist()`. -/
structure ZipEntry where
  name : String
  content : List Nat
deriving DecidableEq, Repr

/-- `str.lower()` on one character, for the ASCII names the archive
uses. -/
def lowerChar (c : Char) : Char :=
  if 65 ≤ c.toNat ∧ c.toNat ≤ 90 then Char.ofNat (c.toNat + 32) else c

/-- `name.lower()` (line 161). -/
def strLower (s : String) : String :=
  String.mk (s.toList.map lowerChar)

/-- `s.endswith(suffix)`. -/
def strEndsWith (s suffix : String) : Bool :=
  List.isPrefixOf suffix.toList.reverse s.toList.reverse

/-- `lower.endswith((".png", ".jpg", ".jpeg", ".webp"))` (line 162). -/
def isImageName (lower : String) : Bool :=
  strEndsWith lower ".png" || strEndsWith lower ".jpg" ||
    strEndsWith lower ".jpeg" || strEndsWith lower ".webp"

/-- The detections contributed by one entry (lines 164-169): non-`.json`
names contribute nothing; a `.json` body that fails to decode/parse is
skipped (`try`/`except` → `continue`); otherwise `_extract_detections`
runs on the document (its exceptions propagate). `jsonParse` is the
`json.loads ∘ decode` oracle of the `json` library. -/
def entryDetections (jsonParse : List Nat → Option JValue) (width height : ℚ)
    (e : ZipEntry) : Option (List Detection) :=
  if strEndsWith (strLower e.name) ".json" then
    match jsonParse e.content with
    | none => some []
    | some data => extract_detections data width height
  else some []

/-- The entry loop of lines 160-169, threading the `annotated` buffer:
an image-suffixed entry is read into `annotated` only while `annotated`
is still falsy (empty bytes), and every `.json` entry extends the
detection list. -/
def parseEntries (jsonParse : List Nat → Option JValue) (width height : ℚ)
    (ann : List Nat) : List ZipEntry → Option (List Detection × List Nat)
  | [] => some ([], ann)
  | e :: rest =>
    match entryDetections jsonParse width height e with
    | none => none
    | some ds =>
      match parseEntries jsonParse width height
          (if ann.isEmpty && isImageName (strLower e.name) then e.content else ann) rest with
      | none => none
      | some (ds2, annF) => some (ds ++ ds2, annF)

/-- `_parse_zip(zip_bytes, width, height)` (lines 151-171): empty input
short-circuits to `([], b"")`; otherwise the `zipfile` oracle
`entriesOf` lists the members (raising `BadZipFile`, i.e. `none`, on a
malformed buffer) and the entry loop runs with an empty `annotated`
accumulator. -/
def parse_zip (jsonParse : List Nat → Option JValue)
    (entriesOf : List Nat → Option (List ZipEntry))
    (zipBytes : List Nat) (width height : ℚ) : Option (List Detection × List Nat) :=
  if zipBytes.isEmpty then some ([], [])
  else
    match entriesOf zipBytes with
    | none => none
    | some es => parseEntries jsonParse width height [] es

-- --------------------------------------------------------------------
-- `_request_zip` (src/Detect_demo.py lines 75-123)
-- --------------------------------------------------------------------

/-- Constants of lines 42-43. `DELAY_BTW_RETRIES` only feeds
`time.sleep`, which the model elides. -/
def MAX_RETRIES : Nat := 5

/-- Delay before each poll, in seconds (line 43, line 114). -/
def DELAY_BTW_RETRIES : Nat := 1

/-- One HTTP response, reduced to the fields the source inspects:
status code and body. -/
structure HttpResponse where
  status : Nat
  content : List Nat
deriving DecidableEq, Repr

/-- The submit response additionally carries the `NVCF-REQID` header
(line 107, `""` when absent). -/
structure SubmitResponse where
  status : Nat
  content : List Nat
  reqid : String
deriving DecidableEq, Repr

/-- Outcome of `_request_zip`: a returned body, or a raised
`requests.HTTPError` (the spec's `RemoteError`) carrying status and
body. -/
inductive ReqResult where
  | body : List Nat → ReqResult
  | httpError : Nat → List Nat → ReqResult
deriving DecidableEq, Repr

/-- A `_request_zip` run paired with its observable polling effort:
the value produced, the number of poll GETs issued, and the final value
of the `retries` counter. -/
structure ReqRun where
  result : ReqResult
  pollsMade : Nat
  retriesLeft : Nat
deriving DecidableEq, Repr

/-- The `while retries > 0` loop of lines 113-120, with the poll
responses as an oracle indexed by attempt number: a 200 poll returns its
body, a non-200/non-202 poll breaks, a 202 poll consumes one retry;
falling out of the loop yields `b""` (line 121). Returns
(body, polls made, retries left). -/
def pollLoop (polls : Nat → HttpResponse) : Nat → Nat → List Nat × Nat × Nat
  | 0, _ => ([], 0, 0)
  | r + 1, i =>
    let p := polls i
    if p.status = 200 then (p.content, 1, r + 1)
    else if p.status ≠ 202 then ([], 1, r + 1)
    else
      let o := pollLoop polls r (i + 1)
      (o.1, o.2.1 + 1, o.2.2)

/-- `_request_zip` (lines 103-123) after the submit POST, as a function
of the submit response and the poll oracle: 200 returns the body
(line 105); 202 enters the poll loop with `retries = MAX_RETRIES`
(lines 106-121); otherwise `raise_for_status()` (line 122) raises
`HTTPError` exactly for status codes in [400, 600) and for any other
status falls through to `return response.content` (line 123). -/
def request_zip (submit : SubmitResponse) (polls : Nat → HttpResponse) : ReqRun :=
  if submit.status = 200 then ⟨.body submit.content, 0, MAX_RETRIES⟩
  else if submit.status = 202 then
    let o := pollLoop polls MAX_RETRIES 0
    ⟨.body o.1, o.2.1, o.2.2⟩
  else if 400 ≤ submit.status ∧ submit.status < 600 then
    ⟨.httpError submit.status submit.content, 0, MAX_RETRIES⟩
  else ⟨.body submit.content, 0, MAX_RETRIES⟩

-- --------------------------------------------------------------------
-- `annotate` (src/Detect_demo.py lines 185-216) and
-- `detect` (lines 217-227)
-- --------------------------------------------------------------------

/-- A decoded PIL image: its pixel dimensions (`image.size`). Pixel
data does not influence any claim and is not modelled. -/
structure PImage where
  width : Nat
  height : Nat
deriving DecidableEq, Repr

/-- The PIL capability used by `annotate`/`detect`: `decode` is
`Image.open` (raising, i.e. `none`, on undecodable bytes), `draw` is
the rectangle/text drawing of lines 187-212 on the decoded image, and
`pngBody` is the remainder of `image.save(buffer, format="PNG")` after
the mandatory signature. -/
structure PilCapability where
  decode : List Nat → Option PImage
  draw : PImage → List Detection → PImage
  pngBody : PImage → List Nat

/-- The fixed 8-byte signature every PNG stream begins with; the PNG
encoder of line 215 always emits it first, so its output is never
empty. -/
def pngSignature : List Nat := [137, 80, 78, 71, 13, 10, 26, 10]

/-- `annotate(image_bytes, detections)` (lines 185-216): decode the
source bytes (propagating a decode failure), apply the drawing loop,
and re-encode as PNG. -/
def annotate (pil : PilCapability) (imageBytes : List Nat)
    (detections : List Detection) : Option (List Nat) :=
  match pil.decode imageBytes with
  | none => none
  | some img => some (pngSignature ++ pil.pngBody (pil.draw img detections))

/-- Exceptions `detect` can propagate: an HTTP error from upload or
submit, a PIL decode error, a `zipfile`/extraction error. -/
inductive PyError where
  | httpError : Nat → List Nat → PyError
  | decodeError : PyError
  | zipError : PyError
deriving DecidableEq, Repr

/-- `detect(image_bytes, prompt_text, content_type)` (lines 217-227)
over its collaborators: `uploadOutcome` is the result of
`_upload_asset` (whose network internals no claim touches), `submit`
and `polls` drive `_request_zip`, `pil` drives image decoding and the
fallback annotator, `jsonParse`/`entriesOf` drive `_parse_zip`. The
empty-preview test of line 225 is Python truthiness of the `annotated`
bytes. -/
def detect (pil : PilCapability) (jsonParse : List Nat → Option JValue)
    (entriesOf : List Nat → Option (List ZipEntry))
    (uploadOutcome : Except PyError String)
    (submit : SubmitResponse) (polls : Nat → HttpResponse)
    (imageBytes : List Nat) : Except PyError (List Detection × List Nat) :=
  match uploadOutcome with
  | .error e => .error e
  | .ok _assetId =>
    match (request_zip submit polls).result with
    | .httpError s b => .error (.httpError s b)
    | .body zipBytes =>
      match pil.decode imageBytes with
      | none => .error .decodeError
      | some img =>
        match parse_zip jsonParse entriesOf zipBytes (img.width : ℚ) (img.height : ℚ) with
        | none => .error .zipError
        | some parsed =>
          if parsed.2.isEmpty then
            match annotate pil imageBytes parsed.1 with
            | none => .error .decodeError
            | some b => .ok (parsed.1, b)
          else .ok (parsed.1, parsed.2)

-- --------------------------------------------------------------------
-- Helper lemmas
-- --------------------------------------------------------------------

/-- `_to_pixels` always yields a 4-element rectangle when it returns. -/
theorem to_pixels_length (box : JValue) (W H : ℚ) (l : List ℚ)
    (h : to_pixels box W H = some l) : l.length = 4 := by
  unfold to_pixels at h
  repeat' split at h
  all_goals simp_all
  all_goals subst h
  all_goals rfl

/-- Each produced detection carries the 4-element rectangle of its
normalized box. -/
theorem record_detection_bbox_length (item : JValue) (W H : ℚ) (d : Detection)
    (h : record_detection item W H = some d) : d.bbox.length = 4 := by
  unfold record_detection at h
  cases hb : to_pixels (pyOr (jGet item "bbox") (pyOr (jGet item "box")
      (pyOr (jGet item "bounding_box") (.obj [])))) W H with
  | none => rw [hb] at h; simp at h
  | some bbox =>
    rw [hb] at h
    cases hc : pyFloat (pyOr (jGet item "confidence") (pyOr (jGet item "score") (.num 0))) with
    | none => rw [hc] at h; simp at h
    | some conf =>
      rw [hc] at h
      simp only [Option.some_inj] at h
      subst h
      exact to_pixels_length _ _ _ _ hb

-- --------------------------------------------------------------------
-- Claim C1
-- --------------------------------------------------------------------

/-- C1: for every bounding-box record (whose axis reads succeed) and
every image size, `_to_pixels` scales an axis exactly when both the
position and the extent on that axis lie within [0,1] — both are then
multiplied by the image dimension, otherwise both are left unchanged —
and the result is `[x, y, x+width, y+height]` with no clamping; in
particular image 800×600 with record x=0.1, y=0.1, width=0.2,
height=0.2 yields `[80, 60, 240, 180]`. -/
theorem claim_C1 :
    (∀ (box : JValue) (W H x y w h : ℚ), box.isObj = true →
      readX box = some x → readY box = some y →
      readW box x = some w → readH box y = some h →
      to_pixels box W H =
        some [(if 0 ≤ x ∧ x ≤ 1 ∧ 0 ≤ w ∧ w ≤ 1 then x * W else x),
          (if 0 ≤ y ∧ y ≤ 1 ∧ 0 ≤ h ∧ h ≤ 1 then y * H else y),
          (if 0 ≤ x ∧ x ≤ 1 ∧ 0 ≤ w ∧ w ≤ 1 then x * W + w * W else x + w),
          (if 0 ≤ y ∧ y ≤ 1 ∧ 0 ≤ h ∧ h ≤ 1 then y * H + h * H else y + h)]) ∧
    to_pixels (.obj [("x", .num (1/10)), ("y", .num (1/10)),
      ("width", .num (1/5)), ("height", .num (1/5))]) 800 600 =
      some [80, 60, 240, 180] := by
  constructor
  · intro box W H x y w h hobj hx hy hw hh
    cases box with
    | obj fs =>
      simp only [to_pixels, hx, hy, hw, hh]
      by_cases c1 : 0 ≤ x ∧ x ≤ 1 ∧ 0 ≤ w ∧ w ≤ 1 <;>
        by_cases c2 : 0 ≤ y ∧ y ≤ 1 ∧ 0 ≤ h ∧ h ≤ 1 <;>
        simp [c1, c2]
    | null => simp [JValue.isObj] at hobj
    | bool b => simp [JValue.isObj] at hobj
    | num q => simp [JValue.isObj] at hobj
    | str s => simp [JValue.isObj] at hobj
    | arr xs => simp [JValue.isObj] at hobj
  · simp [to_pixels, readX, readY, readW, readH, jGet, jGetD, pyOr, pyTruthy,
      pyFloat, pySubFloat, List.lookup]
    norm_num

/-- Witness for C1: a concrete pixel-unit record (x=2, so outside unit
range) passes through unscaled. -/
theorem claim_C1_witness :
    to_pixels (.obj [("x", .num 2), ("y", .num 3), ("width", .num 4), ("height", .num 5)])
      7 9 = some [2, 3, 6, 8] := by
  have hx : readX (.obj [("x", .num 2), ("y", .num 3), ("width", .num 4), ("height", .num 5)]) =
      some 2 := by
    simp [readX, jGet, pyOr, pyTruthy, pyFloat, List.lookup]
  have hy : readY (.obj [("x", .num 2), ("y", .num 3), ("width", .num 4), ("height", .num 5)]) =
      some 3 := by
    simp [readY, jGet, pyOr, pyTruthy, pyFloat, List.lookup]
  have hw : readW (.obj [("x", .num 2), ("y", .num 3), ("width", .num 4), ("height", .num 5)])
      2 = some 4 := by
    simp [readW, jGet, pyOr, pyTruthy, pyFloat, List.lookup]
  have hh : readH (.obj [("x", .num 2), ("y", .num 3), ("width", .num 4), ("height", .num 5)])
      3 = some 5 := by
    simp [readH, jGet, pyOr, pyTruthy, pyFloat, List.lookup]
  have h := claim_C1.1
    (.obj [("x", .num 2), ("y", .num 3), ("width", .num 4), ("height", .num 5)])
    7 9 2 3 4 5 rfl hx hy hw hh
  norm_num at h
  exact h

-- --------------------------------------------------------------------
-- Claim C6
-- --------------------------------------------------------------------

/-- C6 counterexample: in the record `width=0, xmax=100, x=20` the key
`width` is present (value 0), so per the claim the extent should be 0
and the output `[20, 0, 20, 0]`; the code treats the falsy 0 as absent,
falls back to `xmax - x = 80`, and yields `[20, 0, 100, 0]`. -/
theorem claim_C6_counterexample :
    to_pixels (.obj [("width", .num 0), ("xmax", .num 100), ("x", .num 20)]) 800 600 =
      some [20, 0, 100, 0] ∧
    (some [20, 0, 100, 0] : Option (List ℚ)) ≠ some [20, 0, 20, 0] := by
  constructor
  · simp [to_pixels, readX, readY, readW, readH, jGet, jGetD, pyOr, pyTruthy,
      pyFloat, pySubFloat, List.lookup]
  · norm_num

/-- C6 (amended): `_to_pixels` reads the extent as `width` when that key
holds a truthy (nonzero) value, and otherwise as `xmax - x` with a
missing `xmax` defaulting to 0 (same for `height`/`ymax - y`); a record
with missing fields is defaulted to 0 so the empty record degrades to
the zero rectangle `[0, 0, 0, 0]`, never a crash. -/
theorem claim_C6_theorem :
    (∀ (box : JValue) (x : ℚ), pyTruthy (jGet box "width") = true →
      readW box x = pyFloat (jGet box "width")) ∧
    (∀ (box : JValue) (x : ℚ), pyTruthy (jGet box "width") = false →
      readW box x = pySubFloat (jGetD box "xmax" (.num 0)) x) ∧
    (∀ (box : JValue) (y : ℚ), pyTruthy (jGet box "height") = true →
      readH box y = pyFloat (jGet box "height")) ∧
    (∀ (box : JValue) (y : ℚ), pyTruthy (jGet box "height") = false →
      readH box y = pySubFloat (jGetD box "ymax" (.num 0)) y) ∧
    (∀ W H : ℚ, to_pixels (.obj []) W H = some [0, 0, 0, 0]) := by
  refine ⟨?_, ?_, ?_, ?_, ?_⟩
  · intro box x h
    simp [readW, h]
  · intro box x h
    simp [readW, h]
  · intro box y h
    simp [readH, h]
  · intro box y h
    simp [readH, h]
  · intro W H
    simp [to_pixels, readX, readY, readW, readH, jGet, jGetD, pyOr, pyTruthy,
      pyFloat, pySubFloat, List.lookup]

/-- Witness for C6: a truthy `width` is used as the extent; with `width`
absent the extent is `xmax - x` (here `0 - 50 = -50`); the empty record
normalizes to the zero rectangle. -/
theorem claim_C6_witness :
    readW (.obj [("width", .num 3)]) 9 = some 3 ∧
    readW (.obj [("x", .num 50)]) 50 = some (-50) ∧
    to_pixels (.obj []) 640 480 = some [0, 0, 0, 0] := by
  refine ⟨?_, ?_, claim_C6_theorem.2.2.2.2 640 480⟩
  · have h := claim_C6_theorem.1 (.obj [("width", .num 3)]) 9
      (by simp [jGet, pyTruthy, List.lookup])
    rw [h]
    simp [jGet, pyFloat, List.lookup]
  · have h := claim_C6_theorem.2.1 (.obj [("x", .num 50)]) 50
      (by simp [jGet, pyTruthy, List.lookup])
    rw [h]
    simp [jGetD, pySubFloat, List.lookup]

-- --------------------------------------------------------------------
-- Claim C5
-- --------------------------------------------------------------------

/-- C5 counterexample: in the record `label="", class="cat",
confidence=0, score=0.5` the first *present* keys are `label` (value
`""`) and `confidence` (value `0`), so the claim predicts label `""`
and confidence `0`; the code skips the falsy present values and
produces label `"cat"` and confidence `0.5`. -/
theorem claim_C5_counterexample :
    extract_detections (.obj [("label", .str ""), ("class", .str "cat"),
      ("confidence", .num 0), ("score", .num (1/2))]) 800 600 =
      some [⟨"cat", 1/2, [0, 0, 0, 0]⟩] ∧
    "cat" ≠ "" ∧ (1/2 : ℚ) ≠ 0 := by
  refine ⟨?_, by decide, by norm_num⟩
  simp [extract_detections, itemsOf, firstListKey, extractLoop, record_detection,
    to_pixels, readX, readY, readW, readH, jGet, jGetD, pyOr, pyTruthy,
    pyFloat, pySubFloat, pyStr, pyRepr, List.lookup]

/-- C5 (amended): for every record processed into a detection, the
label is `str(...)` of the first *truthy* value among
`label`/`class`/`text` (the literal `"object"` when none is truthy),
and the confidence is `float(...)` of the first *truthy* value among
`confidence`/`score` (0 when none is truthy). -/
theorem claim_C5_theorem :
    ∀ (item : JValue) (W H : ℚ) (d : Detection), record_detection item W H = some d →
      d.label = pyStr (pyOr (jGet item "label") (pyOr (jGet item "class")
        (pyOr (jGet item "text") (.str "object")))) ∧
      pyFloat (pyOr (jGet item "confidence") (pyOr (jGet item "score") (.num 0))) =
        some d.confidence := by
  intro item W H d h
  unfold record_detection at h
  cases hb : to_pixels (pyOr (jGet item "bbox") (pyOr (jGet item "box")
      (pyOr (jGet item "bounding_box") (.obj [])))) W H with
  | none => rw [hb] at h; simp at h
  | some bbox =>
    rw [hb] at h
    cases hc : pyFloat (pyOr (jGet item "confidence") (pyOr (jGet item "score") (.num 0))) with
    | none => rw [hc] at h; simp at h
    | some conf =>
      rw [hc] at h
      simp only [Option.some_inj] at h
      subst h
      exact ⟨rfl, by simp [hc]⟩

/-- Witness for C5: the empty record yields the default label
`"object"` and default confidence 0. -/
theorem claim_C5_witness :
    (Detection.mk "object" 0 [0, 0, 0, 0]).label =
      pyStr (pyOr (jGet (JValue.obj []) "label") (pyOr (jGet (JValue.obj []) "class")
        (pyOr (jGet (JValue.obj []) "text") (.str "object")))) ∧
    pyFloat (pyOr (jGet (JValue.obj []) "confidence")
      (pyOr (jGet (JValue.obj []) "score") (.num 0))) =
      some (Detection.mk "object" 0 [0, 0, 0, 0]).confidence := by
  exact claim_C5_theorem (.obj []) 1 1 ⟨"object", 0, [0, 0, 0, 0]⟩ (by
    simp [record_detection, to_pixels, readX, readY, readW, readH, jGet, jGetD,
      pyOr, pyTruthy, pyFloat, pySubFloat, pyStr, pyRepr, List.lookup])

-- --------------------------------------------------------------------
-- Claim C8
-- --------------------------------------------------------------------

/-- C8: every detection produced by `_extract_detections` has all three
fields populated however sparse the record: in the embedding `label` is
a `String` and `confidence` a rational by type, and the `bbox` is
always a list of exactly four numbers — never absent or `None`. -/
theorem claim_C8 :
    ∀ (data : JValue) (W H : ℚ) (ds : List Detection),
      extract_detections data W H = some ds →
      ∀ d ∈ ds, d.bbox.length = 4 := by
  intro data W H ds h
  unfold extract_detections at h
  generalize itemsOf data = items at h
  induction items generalizing ds with
  | nil =>
    simp only [extractLoop, Option.some_inj] at h
    subst h
    intro d hd
    simp at hd
  | cons item rest ih =>
    cases item with
    | obj fs =>
      simp only [extractLoop] at h
      cases hr : record_detection (.obj fs) W H with
      | none => rw [hr] at h; simp at h
      | some d0 =>
        rw [hr] at h
        cases hrest : extractLoop W H rest with
        | none => rw [hrest] at h; simp at h
        | some ds0 =>
          rw [hrest] at h
          simp only [Option.some_inj] at h
          subst h
          intro d hd
          rcases List.mem_cons.mp hd with h1 | h2
          · subst h1
            exact record_detection_bbox_length _ _ _ _ hr
          · exact ih ds0 hrest d h2
    | null =>
      simp only [extractLoop] at h
      exact ih ds h
    | bool b =>
      simp only [extractLoop] at h
      exact ih ds h
    | num q =>
      simp only [extractLoop] at h
      exact ih ds h
    | str s =>
      simp only [extractLoop] at h
      exact ih ds h
    | arr xs =>
      simp only [extractLoop] at h
      exact ih ds h

/-- Witness for C8: the single detection extracted from the empty
record has a 4-element bbox. -/
theorem claim_C8_witness :
    (Detection.mk "object" 0 [0, 0, 0, 0]).bbox.length = 4 := by
  refine claim_C8 (.obj []) 1 1 [⟨"object", 0, [0, 0, 0, 0]⟩] ?_ _ ?_
  · simp [extract_detections, itemsOf, firstListKey, extractLoop, record_detection,
      to_pixels, readX, readY, readW, readH, jGet, jGetD, pyOr, pyTruthy,
      pyFloat, pySubFloat, pyStr, pyRepr, List.lookup]
  · simp

-- --------------------------------------------------------------------
-- Poll-loop lemmas
-- --------------------------------------------------------------------

/-- If the first `k` polls answer 202 and poll `k` (still within the
budget) answers neither 200 nor 202, the loop breaks and yields empty
bytes. -/
theorem pollLoop_break (polls : Nat → HttpResponse) :
    ∀ (k fuel i : Nat), k < fuel →
      (∀ j, j < k → (polls (i + j)).status = 202) →
      (polls (i + k)).status ≠ 200 → (polls (i + k)).status ≠ 202 →
      (pollLoop polls fuel i).1 = [] := by
  intro k
  induction k with
  | zero =>
    intro fuel i hk h202 h200 hne
    rw [Nat.add_zero] at h200 hne
    cases fuel with
    | zero => omega
    | succ r => simp [pollLoop, h200, hne]
  | succ k ih =>
    intro fuel i hk h202 h200 hne
    cases fuel with
    | zero => omega
    | succ r =>
      have h0 : (polls i).status = 202 := by simpa using h202 0 (Nat.succ_pos k)
      simp only [pollLoop, h0]
      norm_num
      refine ih r (i + 1) (by omega) ?_ ?_ ?_
      · intro j hj
        have := h202 (j + 1) (by omega)
        simpa [show i + (j + 1) = i + 1 + j by omega] using this
      · simpa [show i + (k + 1) = i + 1 + k by omega] using h200
      · simpa [show i + (k + 1) = i + 1 + k by omega] using hne

/-- The poll loop issues at most `fuel` GET requests. -/
theorem pollLoop_polls_le (polls : Nat → HttpResponse) :
    ∀ (fuel i : Nat), (pollLoop polls fuel i).2.1 ≤ fuel := by
  intro fuel
  induction fuel with
  | zero => intro i; simp [pollLoop]
  | succ r ih =>
    intro i
    simp only [pollLoop]
    split_ifs with h1 h2
    · simp
    · simp
    · simpa using Nat.succ_le_succ (ih (i + 1))

-- --------------------------------------------------------------------
-- Claim C2
-- --------------------------------------------------------------------

/-- C2: `_request_zip` fails hard on submit but soft on poll. A submit
answered with a non-success status other than 200/202 — non-success in
the sense of `requests.raise_for_status`, i.e. a 4xx/5xx code — raises
`HTTPError` (the spec's `RemoteError`) immediately with zero polls
issued; a poll answered with any status other than 200/202 does not
raise and makes the call return empty bytes. -/
theorem claim_C2 :
    (∀ (submit : SubmitResponse) (polls : Nat → HttpResponse),
      400 ≤ submit.status → submit.status < 600 →
      request_zip submit polls =
        ⟨.httpError submit.status submit.content, 0, MAX_RETRIES⟩) ∧
    (∀ (submit : SubmitResponse) (polls : Nat → HttpResponse) (k : Nat),
      submit.status = 202 → k < MAX_RETRIES →
      (∀ j, j < k → (polls j).status = 202) →
      (polls k).status ≠ 200 → (polls k).status ≠ 202 →
      (request_zip submit polls).result = .body []) := by
  constructor
  · intro submit polls h4 h6
    have h200 : submit.status ≠ 200 := by omega
    have h202 : submit.status ≠ 202 := by omega
    simp [request_zip, h200, h202, h4, h6]
  · intro submit polls k hsub hk hpre h200 hne
    have hb := pollLoop_break polls k MAX_RETRIES 0 hk
      (fun j hj => by simpa using hpre j hj)
      (by simpa using h200) (by simpa using hne)
    simp [request_zip, hsub, hb]

/-- Witness for C2: a 500 submit raises with no polling; a 202 submit
whose first poll answers 404 returns empty bytes. -/
theorem claim_C2_witness :
    request_zip ⟨500, [1], ""⟩ (fun _ => ⟨200, [2]⟩) =
      ⟨.httpError 500 [1], 0, MAX_RETRIES⟩ ∧
    (request_zip ⟨202, [], ""⟩ (fun _ => ⟨404, [3]⟩)).result = .body [] := by
  constructor
  · exact claim_C2.1 ⟨500, [1], ""⟩ (fun _ => ⟨200, [2]⟩) (by norm_num) (by norm_num)
  · exact claim_C2.2 ⟨202, [], ""⟩ (fun _ => ⟨404, [3]⟩) 0 rfl
      (by norm_num [MAX_RETRIES]) (fun j hj => absurd hj (Nat.not_lt_zero j))
      (by norm_num) (by norm_num)

-- --------------------------------------------------------------------
-- Claim C3
-- --------------------------------------------------------------------

/-- C3: with retry budget 5, a 202 submit followed by poll statuses
202, 202, 200 returns the third poll's body after 3 polls with 3
retries left (exactly 2 consumed); a 202 submit whose polls answer 202
for the whole budget returns empty bytes after 5 polls with the budget
exhausted. -/
theorem claim_C3 :
    (∀ (sc b1 b2 b3 : List Nat) (rid : String) (tail : Nat → HttpResponse),
      request_zip ⟨202, sc, rid⟩
        (fun i => if i = 0 then ⟨202, b1⟩ else if i = 1 then ⟨202, b2⟩
          else if i = 2 then ⟨200, b3⟩ else tail i) =
        ⟨.body b3, 3, 3⟩ ∧ MAX_RETRIES - 3 = 2) ∧
    (∀ (sc : List Nat) (rid : String) (bodies : Nat → List Nat),
      request_zip ⟨202, sc, rid⟩ (fun i => ⟨202, bodies i⟩) = ⟨.body [], 5, 0⟩) := by
  constructor
  · intro sc b1 b2 b3 rid tail
    constructor
    · simp [request_zip, pollLoop, MAX_RETRIES]
    · simp [MAX_RETRIES]
  · intro sc rid bodies
    simp [request_zip, pollLoop, MAX_RETRIES]

-- --------------------------------------------------------------------
-- Claim C10
-- --------------------------------------------------------------------

/-- C10: the polling loop runs at most `MAX_RETRIES = 5` iterations
(one poll per iteration) for every submit response and every poll
oracle; `request_zip` is a total function of its oracles, so it
terminates on every input by construction. -/
theorem claim_C10 :
    ∀ (submit : SubmitResponse) (polls : Nat → HttpResponse),
      (request_zip submit polls).pollsMade ≤ MAX_RETRIES := by
  intro submit polls
  unfold request_zip
  split_ifs with h1 h2 h3
  · simp [MAX_RETRIES]
  · simpa using pollLoop_polls_le polls MAX_RETRIES 0
  · simp [MAX_RETRIES]
  · simp [MAX_RETRIES]

-- --------------------------------------------------------------------
-- Entry-loop lemmas
-- --------------------------------------------------------------------

/-- Over a list of dict records, the extraction loop preserves count and
order: it succeeds with one detection per record, the `i`-th detection
coming from the `i`-th record. -/
theorem extractLoop_obj_spec (W H : ℚ) :
    ∀ (recs : List JValue) (ds : List Detection),
      (∀ r ∈ recs, r.isObj = true) →
      extractLoop W H recs = some ds →
      ds.length = recs.length ∧
      ∀ (i : Nat) (hi : i < recs.length) (hj : i < ds.length),
        record_detection recs[i] W H = some ds[i] := by
  intro recs
  induction recs with
  | nil =>
    intro ds hobj h
    simp only [extractLoop, Option.some_inj] at h
    subst h
    exact ⟨rfl, fun i hi hj => absurd hi (by simp)⟩
  | cons r rest ih =>
    intro ds hobj h
    have hr : r.isObj = true := hobj r (List.mem_cons_self r rest)
    cases r with
    | obj fs =>
      simp only [extractLoop] at h
      cases hd : record_detection (.obj fs) W H with
      | none => rw [hd] at h; simp at h
      | some d0 =>
        rw [hd] at h
        cases hrest : extractLoop W H rest with
        | none => rw [hrest] at h; simp at h
        | some ds0 =>
          rw [hrest] at h
          simp only [Option.some_inj] at h
          subst h
          obtain ⟨hlen, hidx⟩ :=
            ih ds0 (fun x hx => hobj x (List.mem_cons_of_mem _ hx)) hrest
          refine ⟨by simp [hlen], ?_⟩
          intro i hi hj
          cases i with
          | zero => simpa using hd
          | succ n =>
            simp only [List.getElem_cons_succ]
            exact hidx n (by simpa using hi) (by simpa using hj)
    | null => simp [JValue.isObj] at hr
    | bool b => simp [JValue.isObj] at hr
    | num q => simp [JValue.isObj] at hr
    | str s => simp [JValue.isObj] at hr
    | arr xs => simp [JValue.isObj] at hr

/-- The entry loop is compositional: detections of a concatenated
archive listing are the detections of the first part followed by those
of the second, the preview accumulator threading through. -/
theorem parseEntries_append (jp : List Nat → Option JValue) (W H : ℚ) :
    ∀ (es1 es2 : List ZipEntry) (ann ds1 a1 ds2 a2),
      parseEntries jp W H ann es1 = some (ds1, a1) →
      parseEntries jp W H a1 es2 = some (ds2, a2) →
      parseEntries jp W H ann (es1 ++ es2) = some (ds1 ++ ds2, a2) := by
  intro es1
  induction es1 with
  | nil =>
    intro es2 ann ds1 a1 ds2 a2 h1 h2
    simp only [parseEntries, Option.some_inj, Prod.mk.injEq] at h1
    obtain ⟨h11, h12⟩ := h1
    subst h11
    subst h12
    simpa using h2
  | cons e rest ih =>
    intro es2 ann ds1 a1 ds2 a2 h1 h2
    simp only [List.cons_append, parseEntries] at h1 ⊢
    cases hd : entryDetections jp W H e with
    | none => rw [hd] at h1; simp at h1
    | some ds0 =>
      rw [hd] at h1
      cases hrest : parseEntries jp W H
          (if ann.isEmpty && isImageName (strLower e.name) then e.content else ann) rest with
      | none => rw [hrest] at h1; simp at h1
      | some p =>
        rw [hrest] at h1
        obtain ⟨ds1', a1'⟩ := p
        simp only [Option.some_inj, Prod.mk.injEq] at h1
        obtain ⟨h11, h12⟩ := h1
        subst h12
        have hih := ih es2 _ ds1' a1' ds2 a2 hrest h2
        rw [List.append_eq, hih]
        simp [← h11, List.append_assoc]

-- --------------------------------------------------------------------
-- Claim C4
-- --------------------------------------------------------------------

/-- C4: round-trip through the unpacker preserves count and order: an
archive whose single entry is a JSON document with `predictions`
holding N dict records yields exactly those N detections in record
order (`i`-th detection from `i`-th record), and the entry loop
concatenates detections of consecutive archive parts in
document-then-record order. -/
theorem claim_C4 :
    (∀ (jp : List Nat → Option JValue) (eo : List Nat → Option (List ZipEntry))
        (W H : ℚ) (zb bs : List Nat) (name : String) (recs : List JValue)
        (ds : List Detection),
      zb.isEmpty = false →
      eo zb = some [⟨name, bs⟩] →
      strEndsWith (strLower name) ".json" = true →
      jp bs = some (.obj [("predictions", .arr recs)]) →
      (∀ r ∈ recs, r.isObj = true) →
      extract_detections (.obj [("predictions", .arr recs)]) W H = some ds →
      (∃ a, parse_zip jp eo zb W H = some (ds, a)) ∧
        ds.length = recs.length ∧
        ∀ (i : Nat) (hi : i < recs.length) (hj : i < ds.length),
          record_detection recs[i] W H = some ds[i]) ∧
    (∀ (jp : List Nat → Option JValue) (W H : ℚ) (ann : List Nat)
        (es1 es2 : List ZipEntry) (ds1 ds2 : List Detection) (a1 a2 : List Nat),
      parseEntries jp W H ann es1 = some (ds1, a1) →
      parseEntries jp W H a1 es2 = some (ds2, a2) →
      parseEntries jp W H ann (es1 ++ es2) = some (ds1 ++ ds2, a2)) := by
  constructor
  · intro jp eo W H zb bs name recs ds hzb heo hname hjp hobj hext
    have hitems : itemsOf (.obj [("predictions", .arr recs)]) = recs := by
      simp [itemsOf, firstListKey, jGet, List.lookup]
    have hloop : extractLoop W H recs = some ds := by
      unfold extract_detections at hext
      rwa [hitems] at hext
    obtain ⟨hlen, hidx⟩ := extractLoop_obj_spec W H recs ds hobj hloop
    refine ⟨⟨if isImageName (strLower name) then bs else [], ?_⟩, hlen, hidx⟩
    simp only [parse_zip, hzb, Bool.false_eq_true, if_false, heo]
    simp [parseEntries, entryDetections, hname, hjp, hext]
  · exact fun jp W H ann es1 es2 ds1 ds2 a1 a2 h1 h2 =>
      parseEntries_append jp W H es1 es2 ann ds1 a1 ds2 a2 h1 h2

/-- Witness for C4: a one-record `predictions` document round-trips to
one detection. -/
theorem claim_C4_witness :
    ∃ a, parse_zip
      (fun b => if b = [10] then some (.obj [("predictions", .arr [.obj []])]) else none)
      (fun _ => some [⟨"r.json", [10]⟩]) [1] 1 1 =
      some ([⟨"object", 0, [0, 0, 0, 0]⟩], a) := by
  exact (claim_C4.1
    (fun b => if b = [10] then some (.obj [("predictions", .arr [.obj []])]) else none)
    (fun _ => some [⟨"r.json", [10]⟩]) 1 1 [1] [10] "r.json" [.obj []]
    [⟨"object", 0, [0, 0, 0, 0]⟩]
    (by decide) rfl (by decide) (by simp)
    (by intro r hr; simp at hr; subst hr; rfl)
    (by simp [extract_detections, itemsOf, firstListKey, extractLoop, record_detection,
      to_pixels, readX, readY, readW, readH, jGet, jGetD, pyOr, pyTruthy,
      pyFloat, pySubFloat, pyStr, pyRepr, List.lookup])).1

-- --------------------------------------------------------------------
-- Claim C7
-- --------------------------------------------------------------------

/-- Modelled from the spec's amended reading of the preview rule: the
content of the first image-suffixed entry whose content is non-empty
(empty bytes count as "still no preview"). -/
def firstNonemptyImage : List ZipEntry → List Nat
  | [] => []
  | e :: rest =>
    if isImageName (strLower e.name) && !e.content.isEmpty then e.content
    else firstNonemptyImage rest

/-- The preview accumulator of the entry loop resolves to the first
image entry with non-empty content (or to the incoming accumulator when
that is already non-empty). -/
theorem parseEntries_preview (jp : List Nat → Option JValue) (W H : ℚ) :
    ∀ (es : List ZipEntry) (ann ds a),
      parseEntries jp W H ann es = some (ds, a) →
      a = if ann.isEmpty then firstNonemptyImage es else ann := by
  intro es
  induction es with
  | nil =>
    intro ann ds a h
    simp only [parseEntries, Option.some_inj, Prod.mk.injEq] at h
    obtain ⟨h1, h2⟩ := h
    subst h2
    cases ann with
    | nil => simp [firstNonemptyImage]
    | cons x xs => simp
  | cons e rest ih =>
    intro ann ds a h
    simp only [parseEntries] at h
    cases hd : entryDetections jp W H e with
    | none => rw [hd] at h; simp at h
    | some ds0 =>
      rw [hd] at h
      cases hrest : parseEntries jp W H
          (if ann.isEmpty && isImageName (strLower e.name) then e.content else ann) rest with
      | none => rw [hrest] at h; simp at h
      | some p =>
        rw [hrest] at h
        obtain ⟨ds1, a1⟩ := p
        simp only [Option.some_inj, Prod.mk.injEq] at h
        obtain ⟨h1, h2⟩ := h
        subst h2
        have hres := ih _ _ _ hrest
        cases hann : ann.isEmpty with
        | false =>
          have hne : ann ≠ [] := by
            cases ann with
            | nil => simp at hann
            | cons x xs => simp
          rw [hann] at hres
          simp at hres
          simp [hann, hres, hne]
        | true =>
          have hann2 : ann = [] := by
            cases ann with
            | nil => rfl
            | cons x xs => simp at hann
          subst hann2
          by_cases himg : isImageName (strLower e.name) = true
          · by_cases hc : e.content.isEmpty = true
            · have hc2 : e.content = [] := by
                cases hcc : e.content with
                | nil => rfl
                | cons x xs => rw [hcc] at hc; simp at hc
              rw [himg, hc2] at hres
              simp at hres
              simp [firstNonemptyImage, himg, hc2, hres]
            · have hc2 : e.content.isEmpty = false := by simpa using hc
              rw [himg] at hres
              simp only [List.isEmpty_nil, Bool.true_and, if_true] at hres
              rw [hc2] at hres
              simp at hres
              simp [firstNonemptyImage, himg, hc2, hres]
          · have himg2 : isImageName (strLower e.name) = false := by simpa using himg
            rw [himg2] at hres
            simp at hres
            simp [firstNonemptyImage, himg2, hres]

/-- C7 counterexample: an archive listing `a.png` (empty content) then
`b.png` (content `[1]`): the claim says the preview is the content of
the first matching entry, i.e. empty, but the code returns the second
entry's content `[1]` because the empty first read leaves `annotated`
falsy. -/
theorem claim_C7_counterexample :
    parse_zip (fun _ => none) (fun _ => some [⟨"a.png", []⟩, ⟨"b.png", [1]⟩]) [0] 1 1 =
      some ([], [1]) ∧ ([1] : List Nat) ≠ [] := by
  constructor
  · decide
  · decide

/-- C7 (amended): the embedded preview returned by `_parse_zip` is the
content of the first image-suffixed entry (png/jpg/jpeg/webp,
case-insensitive) whose content is non-empty; matching entries with
empty content do not stop the search, and once a non-empty preview is
captured all later matching entries are ignored. -/
theorem claim_C7_theorem :
    ∀ (jp : List Nat → Option JValue) (eo : List Nat → Option (List ZipEntry))
      (zb : List Nat) (W H : ℚ) (es : List ZipEntry) (ds : List Detection) (a : List Nat),
      zb.isEmpty = false → eo zb = some es →
      parse_zip jp eo zb W H = some (ds, a) →
      a = firstNonemptyImage es := by
  intro jp eo zb W H es ds a hzb heo hp
  simp only [parse_zip, hzb, Bool.false_eq_true, if_false, heo] at hp
  have := parseEntries_preview jp W H es [] ds a hp
  simpa using this

/-- Witness for C7: an archive with a single non-image entry yields the
empty preview, the first-non-empty-image of its listing. -/
theorem claim_C7_witness :
    ([] : List Nat) = firstNonemptyImage [⟨"x.txt", [7]⟩] := by
  exact claim_C7_theorem (fun _ => none) (fun _ => some [⟨"x.txt", [7]⟩]) [0] 1 1
    [⟨"x.txt", [7]⟩] [] [] (by decide) rfl (by decide)

-- --------------------------------------------------------------------
-- Claim C9
-- --------------------------------------------------------------------

/-- C9: whenever `detect` returns, the result-image bytes are
non-empty: an empty preview from the unpacked archive (including the
empty-result path) routes the original source bytes through the
fallback annotator, whose PNG re-encoding always begins with the 8-byte
PNG signature and is therefore never empty. -/
theorem claim_C9 :
    (∀ (pil : PilCapability) (jp : List Nat → Option JValue)
        (eo : List Nat → Option (List ZipEntry)) (upload : Except PyError String)
        (submit : SubmitResponse) (polls : Nat → HttpResponse)
        (src : List Nat) (ds : List Detection) (out : List Nat),
      detect pil jp eo upload submit polls src = .ok (ds, out) → out ≠ []) ∧
    (∀ (pil : PilCapability) (src : List Nat) (ds : List Detection) (img : PImage),
      pil.decode src = some img →
      annotate pil src ds = some (pngSignature ++ pil.pngBody (pil.draw img ds))) := by
  constructor
  · intro pil jp eo upload submit polls src ds out h
    cases upload with
    | error e => simp [detect] at h
    | ok aid =>
      cases hr : (request_zip submit polls).result with
      | httpError s b => simp [detect, hr] at h
      | body zb =>
        cases hdec : pil.decode src with
        | none => simp [detect, hr, hdec] at h
        | some img =>
          cases hp : parse_zip jp eo zb (img.width : ℚ) (img.height : ℚ) with
          | none => simp [detect, hr, hdec, hp] at h
          | some parsed =>
            by_cases he : parsed.2.isEmpty = true
            · cases ha : annotate pil src parsed.1 with
              | none =>
                simp only [annotate, hdec] at ha
                exact absurd ha (by simp)
              | some b =>
                have hb : b = pngSignature ++ pil.pngBody (pil.draw img parsed.1) := by
                  simp only [annotate, hdec, Option.some_inj] at ha
                  exact ha.symm
                simp [detect, hr, hdec, hp, he, ha] at h
                obtain ⟨h1, h2⟩ := h
                subst h2
                rw [hb]
                simp [pngSignature]
            · simp [detect, hr, hdec, hp, he] at h
              intro hc
              exact he (by simp [h, hc])
  · intro pil src ds img hdec
    simp [annotate, hdec]

/-- Witness for C9: a trivial PIL capability, a 200 submit with empty
body and an empty archive exercise the fallback path; the PNG signature
itself is the non-empty output. -/
theorem claim_C9_witness :
    pngSignature ≠ [] ∧
    annotate ⟨fun _ => some ⟨1, 1⟩, fun i _ => i, fun _ => []⟩ [] [] =
      some (pngSignature ++ []) := by
  constructor
  · exact claim_C9.1 ⟨fun _ => some ⟨1, 1⟩, fun i _ => i, fun _ => []⟩ (fun _ => none)
      (fun _ => some []) (.ok "a") ⟨200, [], ""⟩ (fun _ => ⟨200, []⟩) [] [] pngSignature
      rfl
  · exact claim_C9.2 ⟨fun _ => some ⟨1, 1⟩, fun i _ => i, fun _ => []⟩ [] [] ⟨1, 1⟩ rfl
